import Mathlib

set_option maxHeartbeats 1000000
set_option maxRecDepth 8000

/-!
Verification development for the package patch engine of
`Target_app.py` (the spreadsheet-template masterfile writer).

The Python functions of the patch engine (`_col_letter`, `_col_number`,
`sanitize_xml_text`, `_union_dimension`, `_intersects_range`,
`_patch_sheet_xml`, `_patch_table_xml`, `_read_table_cols_count`,
`_strip_calcchain_override`, `_find_sheet_part_path`,
`_get_table_paths_for_sheet`, `fast_patch_template`) are embedded as
executable Lean definitions below; parsed XML documents are represented
by structures carrying exactly the attributes and children the code
reads or writes, with everything the code never touches kept as
uninterpreted payload strings.
-/

/-- Characters counted as whitespace by CPython's `str.strip()` /
`str.isspace()` (bidirectional classes WS, B, S and category Zs). -/
def pyIsSpace (c : Char) : Bool :=
  let n := c.toNat
  (9 ≤ n && n ≤ 13) || n == 32 || (28 ≤ n && n ≤ 31) || n == 133 || n == 160 ||
    n == 5760 || (8192 ≤ n && n ≤ 8202) || n == 8232 || n == 8233 ||
    n == 8239 || n == 8287 || n == 12288

/-- Python `s.strip()`: remove leading and trailing whitespace. -/
def pyStrip (s : String) : String :=
  String.mk (((s.data.dropWhile pyIsSpace).reverse.dropWhile pyIsSpace).reverse)

/-- The character class of the source's `_INVALID_XML_CHARS` regex:
`[\x00-\x08\x0B\x0C\x0E-\x1F\uD800-\uDFFF]`. -/
def isInvalidXmlChar (c : Char) : Bool :=
  let n := c.toNat
  n ≤ 8 || n == 11 || n == 12 || (14 ≤ n && n ≤ 31) || (55296 ≤ n && n ≤ 57343)

/-- `sanitize_xml_text`: delete every invalid XML character. -/
def sanitize_xml_text (s : String) : String :=
  String.mk (s.data.filter (fun c => !isInvalidXmlChar c))

/-- Decimal value of a digit list (used after an all-digits check). -/
def natFromDigits (l : List Char) : Nat :=
  l.foldl (fun n c => n * 10 + (c.toNat - 48)) 0

/-- Fuel-driven engine of `_col_letter`; the loop
`while n: n, r = divmod(n - 1, 26); s = chr(65 + r) + s` terminates in at
most `n` steps, so fuel `n` suffices. -/
def colLetterAux : Nat → Nat → String
  | 0, _ => ""
  | _ + 1, 0 => ""
  | fuel + 1, n + 1 => colLetterAux fuel (n / 26) ++ String.mk [Char.ofNat (65 + n % 26)]

/-- `_col_letter`: bijective base-26 column letters, `1 ↦ "A"`. -/
def _col_letter (n : Nat) : String := colLetterAux n n

/-- Loop of `_col_number`: accumulate letters until a non-letter breaks. -/
def colNumberAux : Nat → List Char → Nat
  | acc, [] => acc
  | acc, ch :: rest =>
    if ch.isAlpha then colNumberAux (acc * 26 + (ch.toUpper.toNat - 64)) rest else acc

/-- `_col_number`: column letters back to a 1-based column number. -/
def _col_number (s : String) : Nat := colNumberAux 0 s.data

/-- Fuel-driven engine of Python `str.replace` (all occurrences,
left to right, non-overlapping); one character is consumed per step, so
the length of the subject suffices as fuel. -/
def replaceFuel : Nat → List Char → List Char → List Char → List Char
  | 0, s, _, _ => s
  | _ + 1, [], _, _ => []
  | fuel + 1, c :: rest, pat, rep =>
    if pat ≠ [] ∧ pat.isPrefixOf (c :: rest) then
      rep ++ replaceFuel fuel ((c :: rest).drop pat.length) pat rep
    else c :: replaceFuel fuel rest pat rep

/-- Python `s.replace(pat, rep)` (the engine never calls it with an
empty pattern, which is left as the identity here). -/
def strReplace (s pat rep : String) : String :=
  if pat = "" then s else String.mk (replaceFuel s.data.length s.data pat.data rep.data)

/-- Python `s.startswith(p)`. -/
def strStartsWith (s p : String) : Bool := p.data.isPrefixOf s.data

/-- Python `s.endswith(p)`. -/
def strEndsWith (s p : String) : Bool := p.data.isSuffixOf s.data

/-- Python `s[n:]` for a nonnegative `n`. -/
def strDrop (s : String) (n : Nat) : String := String.mk (s.data.drop n)

/-- Python `s.lower()` restricted to ASCII (all part names the engine
compares are ASCII). -/
def strToLower (s : String) : String := String.mk (s.data.map Char.toLower)

/-- Split a character list at every occurrence of `sep`
(Python `s.split(sep)`). -/
def splitListOn (sep : Char) : List Char → List (List Char)
  | [] => [[]]
  | c :: rest =>
    let r := splitListOn sep rest
    if c = sep then [] :: r
    else
      match r with
      | [] => [[c]]
      | h :: t => (c :: h) :: t

/-- Everything after the first `:`; `none` when the string has no colon
(Python `s.split(":", 1)` raising on unpacking). -/
def afterFirstColon (s : String) : Option String :=
  match splitListOn ':' s.data with
  | [] => none
  | [_] => none
  | _ :: rest => some (String.mk (List.intercalate [':'] rest))

/-- The regex `([A-Z]+)(\d+)` of `_union_dimension`, matched at the start
of the string: a maximal run of uppercase letters followed by at least
one digit; returns the letter group and the numeric value of the digit
group. -/
def matchColRow (s : String) : Option (String × Nat) :=
  let letters := s.data.takeWhile (fun c => 'A' ≤ c && c ≤ 'Z')
  let rest := s.data.drop letters.length
  let digits := rest.takeWhile (fun c => c.isDigit)
  if letters.isEmpty || digits.isEmpty then none
  else some (String.mk letters, natFromDigits digits)

/-- One side of the `_intersects_range` regex
`^[A-Z]+(\d+):[A-Z]+(\d+)$` with `re.I`: letters then digits, nothing
else; returns the digit group's value. -/
def cellRefRowCI (s : List Char) : Option Nat :=
  let letters := s.takeWhile (fun c => c.isAlpha)
  let rest := s.drop letters.length
  if letters.isEmpty then none
  else if rest.isEmpty then none
  else if rest.all (fun c => c.isDigit) then some (natFromDigits rest) else none

/-- Row pair of a merge reference per the `_intersects_range` regex:
requires exactly one colon with a letters+digits cell reference
(case-insensitive) on each side. -/
def mergeRefRows (a1 : String) : Option (Nat × Nat) :=
  match splitListOn ':' a1.data with
  | [p, q] =>
    match cellRefRowCI p, cellRefRowCI q with
    | some lo, some hi => some (lo, hi)
    | _, _ => none
  | _ => none

/-- `_intersects_range`: does the merge reference's row span meet
`[r1, r2]`?  Unparseable references never intersect. -/
def _intersects_range (a1 : String) (r1 r2 : Nat) : Bool :=
  match mergeRefRows a1 with
  | none => false
  | some (lo, hi) =>
    let p := if lo > hi then (hi, lo) else (lo, hi)
    !(p.2 < r1 || p.1 > r2)

/-- The bottom-right corner `_union_dimension` reads out of the original
dimension reference: the part after the first colon must start with
uppercase letters and digits; on any failure the fallback
`(used_cols, last_row)` is used. -/
def dimOrigBR (s : String) : Option (Nat × Nat) :=
  match afterFirstColon s with
  | none => none
  | some right =>
    match matchColRow right with
    | none => none
    | some (ls, rn) => some (_col_number ls, rn)

/-- The `(orig_last_col, orig_last_row)` pair of `_union_dimension`. -/
def _dim_orig_bounds (orig : String) (usedCols lastRow : Nat) : Nat × Nat :=
  match dimOrigBR orig with
  | some p => p
  | none => (usedCols, lastRow)

/-- `_union_dimension`: bounding box `A1:...` of the original dimension
and the new extents. -/
def _union_dimension (orig : String) (usedCols lastRow : Nat) : String :=
  let p := _dim_orig_bounds orig usedCols lastRow
  "A1:" ++ _col_letter (max p.1 usedCols) ++ toString (max p.2 lastRow)

/-- CPython `int()` on a decimal string: surrounding whitespace allowed,
optional sign, then a nonempty digit run (underscore separators are not
modelled; the engine's count attributes never use them). -/
def pyIntValue (s : String) : Option Int :=
  let t := ((s.data.dropWhile pyIsSpace).reverse.dropWhile pyIsSpace).reverse
  match t with
  | [] => none
  | '+' :: ds =>
    if !ds.isEmpty && ds.all (fun c => c.isDigit) then some ((natFromDigits ds : Nat) : Int)
    else none
  | '-' :: ds =>
    if !ds.isEmpty && ds.all (fun c => c.isDigit) then some (-((natFromDigits ds : Nat) : Int))
    else none
  | ds =>
    if ds.all (fun c => c.isDigit) then some ((natFromDigits ds : Nat) : Int) else none

example : _col_letter 1 = "A" := by decide
example : _col_letter 26 = "Z" := by decide
example : _col_letter 27 = "AA" := by decide
example : _col_number "AA" = 27 := by decide
example : _union_dimension "A1:F2" 4 9 = "A1:F9" := by decide
example : _union_dimension "F9" 2 3 = "A1:B3" := by decide
example : _intersects_range "A2:B5" 3 1048576 = true := by decide
example : _intersects_range "A1048577:B1048578" 3 1048576 = false := by decide
example : strReplace "xl/worksheets/sheet1.xml" "worksheets/" "worksheets/_rels/"
    = "xl/worksheets/_rels/sheet1.xml" := by decide
example : pyIntValue " 12 " = some 12 := by decide
example : pyIntValue "x2" = none := by decide

/-- Content of a cell element: either the inline string the writer
emits (an `is`/`t` pair flagged `xml:space="preserve"`), or anything
else, kept opaque. -/
inductive CellContent where
  | inlineStr : String → CellContent
  | otherCell : String → CellContent
deriving DecidableEq

/-- A `c` element: its address split into column letters and row number
(the source writes `r = f"{col}{row}"`), plus its content. -/
structure WCell where
  colL : String
  rowN : Nat
  content : CellContent
deriving DecidableEq

/-- A `row` element of `sheetData`: `idx` is the parsed `r` attribute
(`int(row.attrib.get("r") or "0")`, `0` on failure), `spans` the
`spans` attribute; everything else the patcher never reads is an opaque
attribute blob. -/
structure WRow where
  idx : Nat
  spans : Option String
  cells : List WCell
  attrsBlob : String
deriving DecidableEq

/-- The parts of a worksheet document the sheet patcher touches:
`sheetData` rows, the `mergeCells` references (`none` = element
absent), the `dimension` `ref` (`none` = element absent or without a
`ref`), the `autoFilter` `ref`, and `sheetPr` with its `filterMode`
attribute (`none` = no `sheetPr`; `some none` = `sheetPr` without the
attribute).  All remaining document content is the opaque
`extraBlob`. -/
structure Worksheet where
  rows : List WRow
  merges : Option (List String)
  dimension : Option String
  autoFilter : Option String
  sheetPr : Option (Option String)
  extraBlob : String
deriving DecidableEq

/-- The text the writer computes for one Data Block value:
`sanitize_xml_text(val).strip() if val else ""`. -/
def cellText (val : String) : String :=
  if val = "" then "" else pyStrip (sanitize_xml_text val)

/-- One freshly written row: row index `r`, the `spans` attribute, the
`x14ac:dyDescent` attribute, and one inline-string cell per nonempty
sanitized value. -/
def mkNewRow (r C : Nat) (srcRow : List String) : WRow :=
  { idx := r
    spans := some (if 0 < C then "1:" ++ toString C else "1:1")
    cells := (List.range C).filterMap (fun j =>
      if cellText (srcRow.getD j "") = "" then none
      else some { colL := _col_letter (j + 1), rowN := r,
                  content := CellContent.inlineStr (cellText (srcRow.getD j "")) })
    attrsBlob := "x14ac:dyDescent=0.25" }

/-- `sheetData` after the patch: rows with parsed index `< start_row`
are kept in place, then one new row per Data Block row is appended. -/
def patchedRows (rows : List WRow) (start_row C : Nat) (B : List (List String)) : List WRow :=
  rows.filter (fun row => row.idx < start_row)
    ++ (List.range B.length).map (fun i => mkNewRow (start_row + i) C (B.getD i []))

/-- `mergeCells` after the patch: drop every reference whose row span
meets `[start_row, 1048576]`; remove the element when it empties. -/
def patchedMerges (m : Option (List String)) (start_row : Nat) : Option (List String) :=
  match m with
  | none => none
  | some ms =>
    let ms2 := ms.filter (fun mr => !(_intersects_range mr start_row 1048576))
    if ms2.isEmpty then none else some ms2

/-- `sheetPr` after the patch: a truthy `filterMode` attribute is
popped. -/
def patchedSheetPr (spr : Option (Option String)) : Option (Option String) :=
  match spr with
  | some (some fm) => if fm = "" then some (some fm) else some none
  | x => x

/-- `_patch_sheet_xml` on a parsed worksheet document (parse errors of
the raw bytes are handled by the caller, `fast_patch_template`). -/
def _patch_sheet_xml (ws : Worksheet) (header_row start_row used_cols_final : Nat)
    (block_2d : List (List String)) : Worksheet :=
  { rows := patchedRows ws.rows start_row used_cols_final block_2d
    merges := patchedMerges ws.merges start_row
    dimension := some (_union_dimension (ws.dimension.getD "A1:A1") used_cols_final
        (max header_row (start_row + block_2d.length - 1)))
    autoFilter := ws.autoFilter.map (fun _ =>
        "A" ++ toString header_row ++ ":" ++ _col_letter used_cols_final
          ++ toString (max header_row (start_row + block_2d.length - 1)))
    sheetPr := patchedSheetPr ws.sheetPr
    extraBlob := ws.extraBlob }

/-- All cell elements of the worksheet at a given address. -/
def wsCellsAt (ws : Worksheet) (col : String) (row : Nat) : List WCell :=
  ws.rows.flatMap (fun r => r.cells.filter (fun c => c.colL == col && c.rowN == row))

/-- The empty worksheet document (no rows, no optional elements). -/
def wsEmpty : Worksheet :=
  { rows := [], merges := none, dimension := none, autoFilter := none,
    sheetPr := none, extraBlob := "" }

example :
    wsCellsAt (_patch_sheet_xml wsEmpty 1 3 2 [["a", ""], ["", "d"]]) "A" 3
      = [{ colL := "A", rowN := 3, content := CellContent.inlineStr "a" }] := by decide
example : wsCellsAt (_patch_sheet_xml wsEmpty 1 3 2 [["a", ""], ["", "d"]]) "B" 3 = [] := by decide
example :
    (_patch_sheet_xml wsEmpty 1 3 2 [["a", ""], ["", "d"]]).dimension = some "A1:B4" := by decide

/-- An `autoFilter` element of a table document: its `ref` attribute and
its number of children (Python's ElementTree makes a childless element
falsy, which `_patch_table_xml`'s `find(...) or SubElement(...)`
evaluates). -/
structure AFElem where
  afRef : Option String
  childCount : Nat
deriving DecidableEq

/-- A parsed table definition: root `ref` attribute, the `autoFilter`
elements in document order, and `tableColumns` as its `count` attribute
paired with its number of children (`none` = no `tableColumns`
element). -/
structure TableXml where
  tref : Option String
  autoFilters : List AFElem
  tableColumns : Option (Option String × Nat)
  blob : String
deriving DecidableEq

/-- `_read_table_cols_count`: `max(int(count), child_count)`, where a
missing or empty `count` attribute contributes 0 and any exception
(including an unparseable `count`) makes the whole function return 0. -/
def _read_table_cols_count (t : TableXml) : Nat :=
  match t.tableColumns with
  | none => 0
  | some (cntAttr, childCount) =>
    match cntAttr with
    | none => childCount
    | some s =>
      if s = "" then childCount
      else
        match pyIntValue s with
        | none => 0
        | some k => (max k (childCount : Int)).toNat

/-- `_patch_table_xml`: set the root `ref`; `find(autoFilter) or
SubElement(...)` picks the first `autoFilter` when it has children and
otherwise appends a fresh one; set `ref` on whichever was picked; set
the `tableColumns` `count` attribute to the actual child count. -/
def _patch_table_xml (t : TableXml) (header_row last_row last_col_n : Nat) : TableXml :=
  let new_ref := "A" ++ toString header_row ++ ":" ++ _col_letter last_col_n ++ toString last_row
  let afs :=
    match t.autoFilters with
    | [] => [{ afRef := some new_ref, childCount := 0 }]
    | af0 :: rest =>
      if 0 < af0.childCount then { afRef := some new_ref, childCount := af0.childCount } :: rest
      else (af0 :: rest) ++ [{ afRef := some new_ref, childCount := 0 }]
  { tref := some new_ref
    autoFilters := afs
    tableColumns := t.tableColumns.map (fun p => ((some (toString p.2) : Option String), p.2))
    blob := t.blob }

/-- One child of the Content-Types document: an `Override` tag flag, its
`PartName` attribute, and opaque remaining content. -/
structure CTEntry where
  isOverride : Bool
  partName : Option String
  blob : String
deriving DecidableEq

/-- One `sheet` child of the workbook's `sheets` element: its `name` and
`r:id` attributes. -/
structure SheetEntry where
  name : Option String
  rid : Option String
deriving DecidableEq

/-- One `Relationship` child of a relationships document: `Id`, `Type`
and `Target` attributes. -/
structure RelEntry where
  relId : Option String
  relType : Option String
  relTarget : Option String
deriving DecidableEq

/-- A package part, carried in parsed form: the role its bytes play when
the engine reads them.  Parts whose bytes are not well-formed XML (or
that the engine never parses) are `raw`. -/
inductive PkgPart where
  | sheet : Worksheet → PkgPart
  | table : TableXml → PkgPart
  | ctypes : List CTEntry → PkgPart
  | workbook : Option (List SheetEntry) → PkgPart
  | rels : List RelEntry → PkgPart
  | raw : String → PkgPart
deriving DecidableEq

/-- The zip container: named parts in stored order. -/
abbrev Package := List (String × PkgPart)

/-- `zipfile.ZipFile.read(fn)`: the content registered last under the
name wins (`NameToInfo` is overwritten per entry); `none` models the
`KeyError` on a missing name. -/
def zread (pkg : Package) (fn : String) : Option PkgPart :=
  pkg.reverse.lookup fn

/-- Errors of the patch pipeline: the two `ValueError`s of sheet
resolution (`NotFound` in the spec's taxonomy), `KeyError` from reading
a missing part, `ET.ParseError`, and the `TypeError` from iterating a
missing `sheets` element. -/
inductive PatchError where
  | notFound : String → PatchError
  | keyNotFound : String → PatchError
  | parseFail : String → PatchError
  | typeFail : String → PatchError
deriving DecidableEq

/-- Relationship-target normalization shared by sheet and table
resolution: backslashes to slashes, strip one leading `../`, force the
`xl/` prefix. -/
def _norm_target (t : String) : String :=
  let t1 := strReplace t "\\" "/"
  let t2 := if strStartsWith t1 "../" then strDrop t1 3 else t1
  if strStartsWith t2 "xl/" then t2 else "xl/" ++ t2

/-- First `sheet` entry whose `name` attribute equals the requested
name. -/
def firstSheetMatch (entries : List SheetEntry) (nm : String) : Option SheetEntry :=
  entries.find? (fun e => e.name == some nm)

/-- First relationship whose `Id` attribute equals the given id. -/
def firstRelMatch (entries : List RelEntry) (rid : String) : Option RelEntry :=
  entries.find? (fun e => e.relId == some rid)

/-- `_find_sheet_part_path`: workbook manifest lookup (name → r:id),
then workbook relationship lookup (r:id → target), then
normalization.  Both `ValueError`s carry their message. -/
def _find_sheet_part_path (pkg : Package) (sheet_name : String) : Except PatchError String :=
  match zread pkg "xl/workbook.xml" with
  | none => Except.error (PatchError.keyNotFound "xl/workbook.xml")
  | some (PkgPart.workbook wbSheets) =>
    match zread pkg "xl/_rels/workbook.xml.rels" with
    | none => Except.error (PatchError.keyNotFound "xl/_rels/workbook.xml.rels")
    | some (PkgPart.rels relEntries) =>
      match wbSheets with
      | none => Except.error (PatchError.typeFail "xl/workbook.xml")
      | some entries =>
        let rid :=
          match firstSheetMatch entries sheet_name with
          | none => ""
          | some e => e.rid.getD ""
        if rid = "" then
          Except.error (PatchError.notFound
            ("Sheet '" ++ sheet_name ++ "' not found in workbook."))
        else
          let target :=
            match firstRelMatch relEntries rid with
            | none => ""
            | some r => r.relTarget.getD ""
          if target = "" then
            Except.error (PatchError.notFound
              ("Relationship for sheet '" ++ sheet_name ++ "' not found."))
          else Except.ok (_norm_target target)
    | some _ => Except.error (PatchError.parseFail "xl/_rels/workbook.xml.rels")
  | some _ => Except.error (PatchError.parseFail "xl/workbook.xml")

/-- `_get_table_paths_for_sheet`: derive the sibling relationships part
by name, return `[]` when it does not exist, else collect the
normalized targets of every relationship whose `Type` ends in
`/table`. -/
def _get_table_paths_for_sheet (pkg : Package) (sheet_path : String) :
    Except PatchError (List String) :=
  let rels_path :=
    strReplace (strReplace sheet_path "worksheets/" "worksheets/_rels/") ".xml" ".xml.rels"
  if (pkg.map Prod.fst).contains rels_path = false then Except.ok []
  else
    match zread pkg rels_path with
    | some (PkgPart.rels entries) =>
      Except.ok (entries.filterMap (fun r =>
        if strEndsWith (r.relType.getD "") "/table" then some (_norm_target (r.relTarget.getD ""))
        else none))
    | some _ => Except.error (PatchError.parseFail rels_path)
    | none => Except.error (PatchError.keyNotFound rels_path)

/-- The column count one bound table contributes to the `max_cols` loop
of `fast_patch_template`; a part that is missing or fails to parse as a
table contributes nothing (`except: pass`). -/
def tableColsOf (pkg : Package) (tp : String) : Nat :=
  match zread pkg tp with
  | some (PkgPart.table t) => _read_table_cols_count t
  | _ => 0

/-- The `max_cols` loop: `used_cols` raised by every bound table's
column count. -/
def effective_used_cols (pkg : Package) (tps : List String) (used_cols : Nat) : Nat :=
  tps.foldl (fun mc tp => max mc (tableColsOf pkg tp)) used_cols

/-- One entry of the `patched_tables` dict: present exactly when the
table part reads and parses (`try ... except: pass`). -/
def patchTableAt (pkg : Package) (header_row last_row max_cols : Nat) (tp : String) :
    Option (String × TableXml) :=
  match zread pkg tp with
  | some (PkgPart.table t) => some (tp, _patch_table_xml t header_row last_row max_cols)
  | _ => none

/-- `_strip_calcchain_override`: drop every root-level `Override` whose
`PartName` lowercases to `/xl/calcchain.xml`; any non-Content-Types
content is returned unchanged (the `except` branch). -/
def _strip_calcchain_override (p : PkgPart) : PkgPart :=
  match p with
  | PkgPart.ctypes entries =>
    PkgPart.ctypes (entries.filter (fun e =>
      !(e.isOverride && strToLower (e.partName.getD "") == "/xl/calcchain.xml")))
  | other => other

/-- The output-zip loop body of `fast_patch_template`, per input entry:
sheet substituted, patched tables substituted, Content-Types sanitized,
the calcChain part dropped, everything else copied via a fresh
read-by-name. -/
def assembleEntry (pkg : Package) (sheet_path : String) (new_sheet : Worksheet)
    (patched_tables : List (String × TableXml)) (pr : String × PkgPart) :
    Option (String × PkgPart) :=
  if pr.1 = sheet_path then some (pr.1, PkgPart.sheet new_sheet)
  else
    match patched_tables.lookup pr.1 with
    | some t => some (pr.1, PkgPart.table t)
    | none =>
      if strToLower pr.1 = "[content_types].xml" then
        some (pr.1, _strip_calcchain_override ((zread pkg pr.1).getD pr.2))
      else if strToLower pr.1 = "xl/calcchain.xml" then none
      else some (pr.1, (zread pkg pr.1).getD pr.2)

/-- The whole output-zip loop. -/
def assembleOutput (pkg : Package) (sheet_path : String) (new_sheet : Worksheet)
    (patched_tables : List (String × TableXml)) : Package :=
  pkg.filterMap (assembleEntry pkg sheet_path new_sheet patched_tables)

/-- `fast_patch_template`: resolve the sheet, collect its bound tables,
raise `used_cols` to the tables' widths, patch the sheet (a sheet part
that is missing or fails to parse aborts), patch each table that
parses, and reassemble. -/
def fast_patch_template (pkg : Package) (sheet_name : String)
    (header_row start_row used_cols : Nat) (block_2d : List (List String)) :
    Except PatchError Package :=
  match _find_sheet_part_path pkg sheet_name with
  | Except.error e => Except.error e
  | Except.ok sheet_path =>
    match _get_table_paths_for_sheet pkg sheet_path with
    | Except.error e => Except.error e
    | Except.ok table_paths =>
      let max_cols := effective_used_cols pkg table_paths used_cols
      match zread pkg sheet_path with
      | none => Except.error (PatchError.keyNotFound sheet_path)
      | some (PkgPart.sheet w) =>
        let new_sheet := _patch_sheet_xml w header_row start_row max_cols block_2d
        let last_row := max header_row (start_row + block_2d.length - 1)
        let patched_tables :=
          table_paths.filterMap (patchTableAt pkg header_row last_row max_cols)
        Except.ok (assembleOutput pkg sheet_path new_sheet patched_tables)
      | some _ => Except.error (PatchError.parseFail sheet_path)

deriving instance DecidableEq for Except

/-- A small but complete well-formed package: workbook, workbook rels,
one worksheet with a merge and a dimension, its rels binding one table,
the table, a calcChain part, Content-Types with a calcChain override,
and two untouched parts. -/
def wsW : Worksheet :=
  { rows := [{ idx := 1, spans := some "1:6",
               cells := [{ colL := "A", rowN := 1, content := CellContent.otherCell "hdr" }],
               attrsBlob := "" },
             { idx := 4, spans := some "1:6",
               cells := [{ colL := "A", rowN := 4, content := CellContent.otherCell "old" }],
               attrsBlob := "" }]
    merges := some ["A1:B1", "A4:B5"]
    dimension := some "A1:F4"
    autoFilter := some "A1:F4"
    sheetPr := some (some "1")
    extraBlob := "cols" }

def tblW : TableXml :=
  { tref := some "A1:F4"
    autoFilters := [{ afRef := some "A1:F4", childCount := 0 }]
    tableColumns := some (some "6", 6)
    blob := "tbl" }

def pkgW : Package :=
  [("[Content_Types].xml",
      PkgPart.ctypes [{ isOverride := true, partName := some "/xl/calcChain.xml", blob := "" },
                      { isOverride := false, partName := none, blob := "defaults" }]),
   ("xl/workbook.xml", PkgPart.workbook (some [{ name := some "S", rid := some "rId1" }])),
   ("xl/_rels/workbook.xml.rels",
      PkgPart.rels [{ relId := some "rId1",
                      relType := some "http://x/worksheet",
                      relTarget := some "worksheets/sheet1.xml" }]),
   ("xl/worksheets/sheet1.xml", PkgPart.sheet wsW),
   ("xl/worksheets/_rels/sheet1.xml.rels",
      PkgPart.rels [{ relId := some "rId2",
                      relType := some "http://x/table",
                      relTarget := some "../tables/table1.xml" }]),
   ("xl/tables/table1.xml", PkgPart.table tblW),
   ("xl/calcChain.xml", PkgPart.raw "calc-cache"),
   ("xl/styles.xml", PkgPart.raw "styles"),
   ("docProps/app.xml", PkgPart.raw "app")]

/-- The patched output for `pkgW` (computed by the engine itself). -/
def outW : Package :=
  (fast_patch_template pkgW "S" 1 3 2 [["a", "b"], ["", "d"]]).toOption.getD []

example : _find_sheet_part_path pkgW "S" = Except.ok "xl/worksheets/sheet1.xml" := by decide
example : _get_table_paths_for_sheet pkgW "xl/worksheets/sheet1.xml"
    = Except.ok ["xl/tables/table1.xml"] := by decide
example : effective_used_cols pkgW ["xl/tables/table1.xml"] 2 = 6 := by decide
example : fast_patch_template pkgW "S" 1 3 2 [["a", "b"], ["", "d"]] = Except.ok outW := rfl
example : outW.map Prod.fst
    = ["[Content_Types].xml", "xl/workbook.xml", "xl/_rels/workbook.xml.rels",
       "xl/worksheets/sheet1.xml", "xl/worksheets/_rels/sheet1.xml.rels",
       "xl/tables/table1.xml", "xl/styles.xml", "docProps/app.xml"] := by decide
example : zread outW "xl/worksheets/sheet1.xml"
    = some (PkgPart.sheet (_patch_sheet_xml wsW 1 3 6 [["a", "b"], ["", "d"]])) := by decide
example : (_patch_sheet_xml wsW 1 3 6 [["a", "b"], ["", "d"]]).merges = some ["A1:B1"] := by decide
example : (_patch_sheet_xml wsW 1 3 6 [["a", "b"], ["", "d"]]).dimension = some "A1:F4" := by
  decide
example : zread outW "xl/tables/table1.xml"
    = some (PkgPart.table (_patch_table_xml tblW 1 4 6)) := by decide
example : zread outW "[Content_Types].xml"
    = some (PkgPart.ctypes [{ isOverride := false, partName := none, blob := "defaults" }]) := by
  decide

/-! ### Column letters are a faithful base-26 encoding -/

theorem colLetterAux_congr :
    ∀ f1 f2 n, n ≤ f1 → n ≤ f2 → colLetterAux f1 n = colLetterAux f2 n := by
  intro f1
  induction f1 with
  | zero =>
    intro f2 n h1 _
    have hn : n = 0 := Nat.le_zero.mp h1
    subst hn
    cases f2 <;> rfl
  | succ g ih =>
    intro f2 n h1 h2
    cases n with
    | zero => cases f2 <;> rfl
    | succ m =>
      cases f2 with
      | zero => omega
      | succ g2 =>
        show colLetterAux (g + 1) (m + 1) = colLetterAux (g2 + 1) (m + 1)
        simp only [colLetterAux]
        have hd : m / 26 ≤ m := Nat.div_le_self m 26
        congr 1
        exact ih g2 (m / 26) (by omega) (by omega)

theorem _col_letter_succ (m : Nat) :
    _col_letter (m + 1) = _col_letter (m / 26) ++ String.mk [Char.ofNat (65 + m % 26)] := by
  show colLetterAux (m + 1) (m + 1) = colLetterAux (m / 26) (m / 26) ++ _
  simp only [colLetterAux]
  rw [colLetterAux_congr m (m / 26) (m / 26) (Nat.le_trans (Nat.div_le_self m 26) (Nat.le_refl m))
    (Nat.le_refl _)]

theorem upperChar_facts (r : Nat) (hr : r < 26) :
    (Char.ofNat (65 + r)).isAlpha = true ∧ (Char.ofNat (65 + r)).toUpper.toNat - 64 = r + 1 := by
  interval_cases r <;> exact ⟨by decide, by decide⟩

theorem _col_letter_chars :
    ∀ n, ∀ c ∈ (_col_letter n).data, ∃ r, r < 26 ∧ c = Char.ofNat (65 + r) := by
  intro n
  induction n using Nat.strong_induction_on with
  | _ n ih =>
    cases n with
    | zero => intro c hc; cases hc
    | succ m =>
      intro c hc
      rw [_col_letter_succ m] at hc
      have hdata : (_col_letter (m / 26) ++ String.mk [Char.ofNat (65 + m % 26)]).data
          = (_col_letter (m / 26)).data ++ [Char.ofNat (65 + m % 26)] := rfl
      rw [hdata, List.mem_append] at hc
      rcases hc with hc | hc
      · exact ih (m / 26) (by omega) c hc
      · rw [List.mem_singleton] at hc
        subst hc
        exact ⟨m % 26, Nat.mod_lt m (by omega), rfl⟩

theorem colNumberAux_append_alpha :
    ∀ l1 l2 acc, (∀ c ∈ l1, c.isAlpha = true) →
      colNumberAux acc (l1 ++ l2) = colNumberAux (colNumberAux acc l1) l2 := by
  intro l1
  induction l1 with
  | nil => intro l2 acc _; rfl
  | cons c rest ih =>
    intro l2 acc h
    have hc : c.isAlpha = true := h c (List.mem_cons_self _ _)
    simp only [List.cons_append, colNumberAux, hc, if_true]
    exact ih l2 _ (fun x hx => h x (List.mem_cons_of_mem _ hx))

theorem colNumberAux_col_letter :
    ∀ n acc, colNumberAux acc (_col_letter n).data
      = acc * 26 ^ (_col_letter n).data.length + n := by
  intro n
  induction n using Nat.strong_induction_on with
  | _ n ih =>
    cases n with
    | zero =>
      intro acc
      show colNumberAux acc [] = acc * 26 ^ (List.length []) + 0
      simp [colNumberAux]
    | succ m =>
      intro acc
      rw [_col_letter_succ m]
      have hdata : (_col_letter (m / 26) ++ String.mk [Char.ofNat (65 + m % 26)]).data
          = (_col_letter (m / 26)).data ++ [Char.ofNat (65 + m % 26)] := rfl
      rw [hdata]
      have halpha : ∀ c ∈ (_col_letter (m / 26)).data, c.isAlpha = true := by
        intro c hc
        obtain ⟨r, hr, rfl⟩ := _col_letter_chars (m / 26) c hc
        exact (upperChar_facts r hr).1
      rw [colNumberAux_append_alpha _ _ acc halpha]
      rw [ih (m / 26) (by omega) acc]
      have hfacts := upperChar_facts (m % 26) (Nat.mod_lt m (by omega))
      simp only [colNumberAux, hfacts.1, if_true]
      rw [hfacts.2]
      have hlen : ((_col_letter (m / 26)).data ++ [Char.ofNat (65 + m % 26)]).length
          = (_col_letter (m / 26)).data.length + 1 := by simp
      rw [hlen]
      have hdm : 26 * (m / 26) + m % 26 = m := Nat.div_add_mod m 26
      calc (acc * 26 ^ (_col_letter (m / 26)).data.length + m / 26) * 26 + (m % 26 + 1)
          = acc * (26 ^ (_col_letter (m / 26)).data.length * 26)
              + (26 * (m / 26) + m % 26 + 1) := by ring
        _ = acc * 26 ^ ((_col_letter (m / 26)).data.length + 1) + (m + 1) := by
            rw [← pow_succ, hdm]

theorem _col_number_col_letter (n : Nat) : _col_number (_col_letter n) = n := by
  have h := colNumberAux_col_letter n 0
  simpa [_col_number] using h

theorem _col_letter_inj {a b : Nat} (h : _col_letter a = _col_letter b) : a = b := by
  have ha := _col_number_col_letter a
  have hb := _col_number_col_letter b
  rw [h] at ha
  omega

/-! ### Cells written by the sheet patcher -/

theorem cellText_eq (v : String) : cellText v = pyStrip (sanitize_xml_text v) := by
  unfold cellText
  by_cases h : v = ""
  · subst h; rfl
  · rw [if_neg h]

theorem mem_wsCellsAt {ws : Worksheet} {col : String} {row : Nat} {c : WCell} :
    c ∈ wsCellsAt ws col row ↔ ∃ r ∈ ws.rows, c ∈ r.cells ∧ c.colL = col ∧ c.rowN = row := by
  unfold wsCellsAt
  rw [List.mem_flatMap]
  constructor
  · rintro ⟨r, hr, hc⟩
    rw [List.mem_filter] at hc
    obtain ⟨hcc, hp⟩ := hc
    simp only [Bool.and_eq_true, beq_iff_eq] at hp
    exact ⟨r, hr, hcc, hp.1, hp.2⟩
  · rintro ⟨r, hr, hcc, h1, h2⟩
    refine ⟨r, hr, ?_⟩
    rw [List.mem_filter]
    exact ⟨hcc, by simp [h1, h2]⟩

theorem mem_mkNewRow_cells {r C : Nat} {srcRow : List String} {c : WCell} :
    c ∈ (mkNewRow r C srcRow).cells
      ↔ ∃ j < C, cellText (srcRow.getD j "") ≠ ""
          ∧ c = { colL := _col_letter (j + 1), rowN := r,
                  content := CellContent.inlineStr (cellText (srcRow.getD j "")) } := by
  unfold mkNewRow
  simp only
  rw [List.mem_filterMap]
  constructor
  · rintro ⟨j, hj, hc⟩
    rw [List.mem_range] at hj
    by_cases ht : cellText (srcRow.getD j "") = ""
    · rw [if_pos ht] at hc
      exact absurd hc (by simp)
    · rw [if_neg ht] at hc
      exact ⟨j, hj, ht, (Option.some.inj hc).symm⟩
  · rintro ⟨j, hj, ht, rfl⟩
    refine ⟨j, List.mem_range.mpr hj, ?_⟩
    rw [if_neg ht]

/-- Which cells the patched worksheet holds at a written address: under
the well-formedness assumption that every original cell sits in the row
whose index it carries, the address `(colLetter (j+1), S+i)` (for
`i < R`, `j < C`) is populated exactly by the one inline-string cell of
the new row `i`, present iff the sanitized trimmed value is nonempty. -/
theorem patched_cellsAt_iff (ws : Worksheet) (H S C : Nat) (B : List (List String))
    (hwf : ∀ r ∈ ws.rows, ∀ c ∈ r.cells, c.rowN = r.idx)
    (i j : Nat) (hi : i < B.length) (hj : j < C) (c : WCell) :
    c ∈ wsCellsAt (_patch_sheet_xml ws H S C B) (_col_letter (j + 1)) (S + i)
      ↔ (cellText ((B.getD i []).getD j "") ≠ ""
          ∧ c = { colL := _col_letter (j + 1), rowN := S + i,
                  content := CellContent.inlineStr (cellText ((B.getD i []).getD j "")) }) := by
  rw [mem_wsCellsAt]
  constructor
  · rintro ⟨r, hr, hcc, hcol, hrow⟩
    have hrows : (_patch_sheet_xml ws H S C B).rows = patchedRows ws.rows S C B := rfl
    rw [hrows] at hr
    unfold patchedRows at hr
    rw [List.mem_append] at hr
    rcases hr with hk | hn
    · rw [List.mem_filter] at hk
      have h1 := hwf r hk.1 c hcc
      have h2 : r.idx < S := by simpa using hk.2
      omega
    · rw [List.mem_map] at hn
      obtain ⟨i2, hi2, rfl⟩ := hn
      rw [List.mem_range] at hi2
      rw [mem_mkNewRow_cells] at hcc
      obtain ⟨j2, hj2, ht, rfl⟩ := hcc
      simp only at hcol hrow
      have hjj : j2 = j := by
        have := _col_letter_inj hcol
        omega
      have hii : i2 = i := by omega
      subst hjj; subst hii
      exact ⟨ht, rfl⟩
  · rintro ⟨ht, rfl⟩
    refine ⟨mkNewRow (S + i) C (B.getD i []), ?_, ?_, rfl, rfl⟩
    · have hrows : (_patch_sheet_xml ws H S C B).rows = patchedRows ws.rows S C B := rfl
      rw [hrows]
      unfold patchedRows
      rw [List.mem_append]
      right
      rw [List.mem_map]
      exact ⟨i, List.mem_range.mpr hi, rfl⟩
    · rw [mem_mkNewRow_cells]
      exact ⟨j, hj, ht, rfl⟩

/-- C1 (counterexample).  The claim as stated trims first and sanitizes
second: for `B[0][0] = "\x01 \x01"` the value is nonempty after
trimming-then-sanitizing (it is the one-space string `" "`), so the
claim requires a cell at `(A, 3)` holding `" "`; the code sanitizes
first and trims second, computes the empty string and emits no cell at
all. -/
theorem C1_counterexample :
    sanitize_xml_text (pyStrip "\u0001 \u0001") = " "
    ∧ wsCellsAt (_patch_sheet_xml wsEmpty 1 3 1 [["\u0001 \u0001"]]) (_col_letter 1) 3 = [] := by
  constructor
  · decide
  · decide

/-- C1 (amended: the text is `sanitize(B[i][j]).strip()`, sanitization
before trimming).  For every Data Block `B`, start row `S` and final
column count `C`, and every `i < R`, `j < C`: provided each original
cell sits in the row carrying its index, a cell exists in the output at
`(columnLetter (j+1), S+i)` iff `B[i][j]` (empty when absent) is
nonempty after sanitization-then-trimming, and every such cell is an
inline string holding exactly `sanitize(B[i][j]).strip()`. -/
theorem C1_patch_cells (ws : Worksheet) (H S C : Nat) (B : List (List String))
    (hwf : ∀ r ∈ ws.rows, ∀ c ∈ r.cells, c.rowN = r.idx)
    (i j : Nat) (hi : i < B.length) (hj : j < C) :
    (wsCellsAt (_patch_sheet_xml ws H S C B) (_col_letter (j + 1)) (S + i) ≠ []
        ↔ pyStrip (sanitize_xml_text ((B.getD i []).getD j "")) ≠ "")
    ∧ ∀ c ∈ wsCellsAt (_patch_sheet_xml ws H S C B) (_col_letter (j + 1)) (S + i),
        c.content = CellContent.inlineStr (pyStrip (sanitize_xml_text ((B.getD i []).getD j ""))) := by
  have hchar := patched_cellsAt_iff ws H S C B hwf i j hi hj
  rw [← cellText_eq]
  constructor
  · constructor
    · intro hne
      obtain ⟨c, hc⟩ := List.exists_mem_of_ne_nil _ hne
      exact ((hchar c).mp hc).1
    · intro ht
      intro hnil
      have hmem := (hchar _).mpr ⟨ht, rfl⟩
      rw [hnil] at hmem
      cases hmem
  · intro c hc
    obtain ⟨_, rfl⟩ := (hchar c).mp hc
    rfl

/-- C1 (witness for the amended theorem at a concrete input). -/
theorem C1_patch_cells_witness :
    (wsCellsAt (_patch_sheet_xml wsEmpty 1 3 2 [["a", ""]]) (_col_letter 1) 3 ≠ []
        ↔ pyStrip (sanitize_xml_text (([["a", ""]].getD 0 []).getD 0 "")) ≠ "")
    ∧ ∀ c ∈ wsCellsAt (_patch_sheet_xml wsEmpty 1 3 2 [["a", ""]]) (_col_letter 1) 3,
        c.content
          = CellContent.inlineStr (pyStrip (sanitize_xml_text (([["a", ""]].getD 0 []).getD 0 ""))) :=
  C1_patch_cells wsEmpty 1 3 2 [["a", ""]] (by decide) 0 0 (by decide) (by decide)

/-- C5.  The patched `sheetData` is exactly the original rows whose
parsed index is below the data-start row, kept verbatim and in order,
followed by freshly written rows all of whose indices are at or above
the data-start row: header rows are never mutated, and only rows at
index `≥ S` are deleted or rewritten. -/
theorem C5_header_rows_preserved (ws : Worksheet) (H S C : Nat) (B : List (List String)) :
    ∃ written : List WRow,
      (_patch_sheet_xml ws H S C B).rows
          = ws.rows.filter (fun row => row.idx < S) ++ written
      ∧ ∀ r ∈ written, S ≤ r.idx := by
  refine ⟨(List.range B.length).map (fun i => mkNewRow (S + i) C (B.getD i [])), rfl, ?_⟩
  intro r hr
  rw [List.mem_map] at hr
  obtain ⟨i, _, rfl⟩ := hr
  show S ≤ S + i
  omega

/-- C2 (code evaluated at the failing input).  A table whose existing
`autoFilter` element has no children — the normal shape of a table's
autofilter — is *not* updated: ElementTree makes a childless element
falsy, so `find(...) or SubElement(...)` appends a second `autoFilter`
and sets the new range only there, leaving the original's `ref` at the
stale `A1:F2` instead of the required `A1:F4`. -/
theorem C2_table_autofilter_stale :
    _patch_table_xml
        { tref := some "A1:F2",
          autoFilters := [{ afRef := some "A1:F2", childCount := 0 }],
          tableColumns := some (some "6", 6), blob := "" } 1 4 6
      = { tref := some "A1:F4",
          autoFilters := [{ afRef := some "A1:F2", childCount := 0 },
                          { afRef := some "A1:F4", childCount := 0 }],
          tableColumns := some (some "6", 6), blob := "" } := by decide

/-- C3 (counterexample).  A worksheet whose original dimension is the
single-cell reference `F9` (no colon, bottom-right column 6, row 9)
makes `_union_dimension`'s `split(":", 1)` raise, so the fallback uses
only the new extents: the output dimension `A1:B3` has last column
2 < 6 and last row 3 < 9 — the dimension shrinks. -/
theorem C3_counterexample :
    (_patch_sheet_xml
        { rows := [], merges := none, dimension := some "F9", autoFilter := none,
          sheetPr := none, extraBlob := "" } 1 3 2 [["x"]]).dimension = some "A1:B3"
    ∧ matchColRow "F9" = some ("F", 9)
    ∧ _col_number "F" = 6
    ∧ dimOrigBR "A1:B3" = some (2, 3) := by decide

/-- C3 (amended: restricted to original dimension references whose
bottom-right corner parses, i.e. the reference contains a colon and
after it uppercase letters followed by digits).  In that case the
output dimension is exactly the bounding-box union `A1:...` of the
original bottom-right `(oc, orr)` and the new extents, so its column
and row maxima are at or above both the original's and the new data's. -/
theorem C3_dimension_union (ws : Worksheet) (H S C : Nat) (B : List (List String))
    (oc orr : Nat)
    (hparse : dimOrigBR (ws.dimension.getD "A1:A1") = some (oc, orr)) :
    (_patch_sheet_xml ws H S C B).dimension
        = some ("A1:" ++ _col_letter (max oc C)
            ++ toString (max orr (max H (S + B.length - 1))))
    ∧ oc ≤ max oc C ∧ C ≤ max oc C
    ∧ orr ≤ max orr (max H (S + B.length - 1))
    ∧ max H (S + B.length - 1) ≤ max orr (max H (S + B.length - 1)) := by
  refine ⟨?_, Nat.le_max_left _ _, Nat.le_max_right _ _,
    Nat.le_max_left _ _, Nat.le_max_right _ _⟩
  show some (_union_dimension (ws.dimension.getD "A1:A1") C (max H (S + B.length - 1))) = _
  unfold _union_dimension _dim_orig_bounds
  rw [hparse]

/-- C3 (witness for the amended theorem at a concrete input). -/
theorem C3_dimension_union_witness :
    (_patch_sheet_xml
        { rows := [], merges := none, dimension := some "A1:F2", autoFilter := none,
          sheetPr := none, extraBlob := "" } 1 3 4 [["x"], ["y"]]).dimension
      = some "A1:F4" := by
  rw [(C3_dimension_union
      { rows := [], merges := none, dimension := some "A1:F2", autoFilter := none,
        sheetPr := none, extraBlob := "" } 1 3 4 [["x"], ["y"]] 6 2 (by decide)).1]
  decide

/-- C4 (counterexample).  The code tests intersection against
`[S, 1048576]`, not `[S, ∞)`: a merge range lying entirely above row
1048576 survives the patch even though its row span is inside
`[S, ∞)`. -/
theorem C4_counterexample :
    (_patch_sheet_xml
        { rows := [], merges := some ["A1048577:B1048578"], dimension := none,
          autoFilter := none, sheetPr := none, extraBlob := "" } 1 3 2 [["x"]]).merges
      = some ["A1048577:B1048578"]
    ∧ mergeRefRows "A1048577:B1048578" = some (1048577, 1048578)
    ∧ 3 ≤ 1048577 := by decide

/-- C4 (amended: the replaced span is `[S, 1048576]`, the sheet's
maximal row, rather than `[S, ∞)`).  Whenever the patched worksheet
still has a `mergeCells` collection, it is nonempty (an emptied
collection node is removed), and every surviving parseable merge range
misses `[S, 1048576]`: its rows are all below `S` or all above
1048576. -/
theorem C4_merges_safe (ws : Worksheet) (H S C : Nat) (B : List (List String))
    (ms : List String)
    (h : (_patch_sheet_xml ws H S C B).merges = some ms) :
    ms ≠ []
    ∧ ∀ m ∈ ms, ∀ lo hi, mergeRefRows m = some (lo, hi) →
        (max lo hi < S ∨ 1048576 < min lo hi) := by
  have hm : patchedMerges ws.merges S = some ms := h
  unfold patchedMerges at hm
  cases hws : ws.merges with
  | none => rw [hws] at hm; cases hm
  | some ms0 =>
    rw [hws] at hm
    simp only at hm
    by_cases hemp : (ms0.filter (fun mr => !(_intersects_range mr S 1048576))).isEmpty = true
    · rw [if_pos hemp] at hm; cases hm
    · rw [if_neg hemp] at hm
      obtain rfl := Option.some.inj hm
      constructor
      · intro hnil
        rw [hnil] at hemp
        exact hemp rfl
      · intro m hmem lo hi hrows
        rw [List.mem_filter] at hmem
        have hfalse : _intersects_range m S 1048576 = false := by
          have := hmem.2
          simp only [Bool.not_eq_true'] at this
          exact this
        unfold _intersects_range at hfalse
        rw [hrows] at hfalse
        simp only at hfalse
        by_cases hlh : lo > hi
        · rw [if_pos hlh] at hfalse
          simp only [Bool.not_eq_false', Bool.or_eq_true, decide_eq_true_eq] at hfalse
          omega
        · rw [if_neg hlh] at hfalse
          simp only [Bool.not_eq_false', Bool.or_eq_true, decide_eq_true_eq] at hfalse
          omega

/-! ### Association-list facts about part stores -/

theorem lookup_mem {β : Type} {l : List (String × β)} {fn : String} {v : β}
    (h : l.lookup fn = some v) : (fn, v) ∈ l := by
  induction l with
  | nil => cases h
  | cons g t ih =>
    rw [List.lookup] at h
    cases hbe : fn == g.1 with
    | true =>
      rw [hbe] at h
      simp only at h
      have he : fn = g.1 := by simpa using hbe
      have hv : g.2 = v := Option.some.inj h
      exact List.mem_cons.mpr (Or.inl (by cases g; simp_all))
    | false =>
      rw [hbe] at h
      simp only at h
      exact List.mem_cons_of_mem _ (ih h)

theorem lookup_eq_some_of_mem_nodup {β : Type} {l : List (String × β)}
    (hnd : (l.map Prod.fst).Nodup) {fn : String} {v : β}
    (hm : (fn, v) ∈ l) : l.lookup fn = some v := by
  induction l with
  | nil => cases hm
  | cons g t ih =>
    rw [List.map_cons, List.nodup_cons] at hnd
    rw [List.lookup]
    rcases List.mem_cons.mp hm with he | hm2
    · have h1 : fn = g.1 := by cases g; simp_all
      have h2 : v = g.2 := by cases g; simp_all
      rw [show (fn == g.1) = true from by simp [h1]]
      simp [h2]
    · have hne : (fn == g.1) = false := by
        apply beq_eq_false_iff_ne.mpr
        intro he
        exact hnd.1 (he ▸ (List.mem_map.mpr ⟨(fn, v), hm2, rfl⟩))
      rw [hne]
      simp only
      exact ih hnd.2 hm2

theorem zread_mem {pkg : Package} {fn : String} {p : PkgPart}
    (h : zread pkg fn = some p) : (fn, p) ∈ pkg :=
  List.mem_reverse.mp (lookup_mem h)

theorem zread_eq_of_mem_nodup {pkg : Package} (hnd : (pkg.map Prod.fst).Nodup)
    {fn : String} {p : PkgPart} (hm : (fn, p) ∈ pkg) : zread pkg fn = some p := by
  unfold zread
  refine lookup_eq_some_of_mem_nodup ?_ (List.mem_reverse.mpr hm)
  have he : List.map Prod.fst pkg.reverse = (List.map Prod.fst pkg).reverse := by simp
  rw [he, List.nodup_reverse]
  exact hnd

theorem patchTableAt_eq_some {pkg : Package} {H lr mc : Nat} {tp : String}
    {pr : String × TableXml} (h : patchTableAt pkg H lr mc tp = some pr) :
    pr.1 = tp ∧ ∃ t, zread pkg tp = some (PkgPart.table t)
      ∧ pr.2 = _patch_table_xml t H lr mc := by
  unfold patchTableAt at h
  cases hz : zread pkg tp with
  | none => rw [hz] at h; cases h
  | some p =>
    rw [hz] at h
    cases p with
    | table t =>
      obtain rfl := (Option.some.inj h).symm
      exact ⟨rfl, t, rfl, rfl⟩
    | sheet w => cases h
    | ctypes e => cases h
    | workbook w => cases h
    | rels r => cases h
    | raw b => cases h

theorem lookup_patched_none {pkg : Package} {H lr mc : Nat} {tps : List String}
    {fn : String} (h : fn ∉ tps) :
    (tps.filterMap (patchTableAt pkg H lr mc)).lookup fn = none := by
  induction tps with
  | nil => rfl
  | cons tp rest ih =>
    have h1 : fn ≠ tp := fun e => h (e ▸ List.mem_cons_self _ _)
    have h2 : fn ∉ rest := fun hm => h (List.mem_cons_of_mem _ hm)
    rw [List.filterMap_cons]
    cases hp : patchTableAt pkg H lr mc tp with
    | none => exact ih h2
    | some pr =>
      have hk := (patchTableAt_eq_some hp).1
      rw [List.lookup]
      rw [show (fn == pr.1) = false from by rw [hk]; exact beq_eq_false_iff_ne.mpr h1]
      simp only
      exact ih h2

theorem lookup_patched_some {pkg : Package} {H lr mc : Nat} {tps : List String}
    {tp : String} {t : TableXml} (hm : tp ∈ tps)
    (hz : zread pkg tp = some (PkgPart.table t)) :
    (tps.filterMap (patchTableAt pkg H lr mc)).lookup tp
      = some (_patch_table_xml t H lr mc) := by
  induction tps with
  | nil => cases hm
  | cons tp0 rest ih =>
    by_cases he : tp0 = tp
    · subst he
      rw [List.filterMap_cons]
      have hpt : patchTableAt pkg H lr mc tp0 = some (tp0, _patch_table_xml t H lr mc) := by
        unfold patchTableAt
        rw [hz]
      rw [hpt, List.lookup]
      simp
    · have hm2 : tp ∈ rest := by
        rcases List.mem_cons.mp hm with he2 | hm2
        · exact absurd he2.symm he
        · exact hm2
      rw [List.filterMap_cons]
      cases hp : patchTableAt pkg H lr mc tp0 with
      | none => exact ih hm2
      | some pr =>
        have hk := (patchTableAt_eq_some hp).1
        rw [List.lookup]
        rw [show (tp == pr.1) = false from by
          rw [hk]; exact beq_eq_false_iff_ne.mpr (fun e => he e.symm)]
        simp only
        exact ih hm2

theorem lookup_patched_mem {pkg : Package} {H lr mc : Nat} {tps : List String}
    {fn : String} {t : TableXml}
    (h : (tps.filterMap (patchTableAt pkg H lr mc)).lookup fn = some t) :
    fn ∈ tps ∧ ∃ t0, zread pkg fn = some (PkgPart.table t0) := by
  have hm := lookup_mem h
  rw [List.mem_filterMap] at hm
  obtain ⟨tp, htp, hpt⟩ := hm
  obtain ⟨hk, t0, hz, _⟩ := patchTableAt_eq_some hpt
  simp only at hk
  subst hk
  exact ⟨htp, t0, hz⟩

theorem assembleEntry_name {pkg : Package} {sheet_path : String} {new_sheet : Worksheet}
    {patched : List (String × TableXml)} {pr b : String × PkgPart}
    (h : assembleEntry pkg sheet_path new_sheet patched pr = some b) : b.1 = pr.1 := by
  unfold assembleEntry at h
  by_cases h1 : pr.1 = sheet_path
  · rw [if_pos h1] at h
    obtain rfl := (Option.some.inj h).symm
    rfl
  · rw [if_neg h1] at h
    cases hl : patched.lookup pr.1 with
    | some t =>
      rw [hl] at h
      obtain rfl := (Option.some.inj h).symm
      rfl
    | none =>
      rw [hl] at h
      by_cases h2 : strToLower pr.1 = "[content_types].xml"
      · rw [if_pos h2] at h
        obtain rfl := (Option.some.inj h).symm
        rfl
      · rw [if_neg h2] at h
        by_cases h3 : strToLower pr.1 = "xl/calcchain.xml"
        · rw [if_pos h3] at h; cases h
        · rw [if_neg h3] at h
          obtain rfl := (Option.some.inj h).symm
          rfl

/-- Inversion of a successful `fast_patch_template` run, given the
resolution results and the parsed sheet part. -/
theorem fast_patch_ok_inversion {pkg : Package} {nm : String} {H S C : Nat}
    {B : List (List String)} {out : Package} {sheet_path : String} {tps : List String}
    {w : Worksheet}
    (hsp : _find_sheet_part_path pkg nm = Except.ok sheet_path)
    (htp : _get_table_paths_for_sheet pkg sheet_path = Except.ok tps)
    (hws : zread pkg sheet_path = some (PkgPart.sheet w))
    (hok : fast_patch_template pkg nm H S C B = Except.ok out) :
    out = assembleOutput pkg sheet_path
        (_patch_sheet_xml w H S (effective_used_cols pkg tps C) B)
        (tps.filterMap
          (patchTableAt pkg H (max H (S + B.length - 1)) (effective_used_cols pkg tps C))) := by
  unfold fast_patch_template at hok
  rw [hsp] at hok
  simp only at hok
  rw [htp] at hok
  simp only at hok
  rw [hws] at hok
  simp only at hok
  exact (Except.ok.inj hok).symm

/-- A part name the assembler leaves alone: not the resolved sheet, not
a bound table, not the Content-Types manifest, not the calcChain
part. -/
def untouchedName (sheet_path : String) (tps : List String) (fn : String) : Bool :=
  !(fn == sheet_path) && !(decide (fn ∈ tps))
    && !(strToLower fn == "[content_types].xml") && !(strToLower fn == "xl/calcchain.xml")

/-- C6.  In a package with unique part names (the Part Store is a set
of named blobs), every part other than the resolved worksheet part, the
parts bound as tables, the Content-Types manifest and the
calculation-cache part appears in the output with identical name and
content, and the relative order of these untouched parts is
preserved: filtering both packages to the untouched names yields the
same list. -/
theorem C6_passthrough (pkg : Package) (nm : String) (H S C : Nat) (B : List (List String))
    (out : Package) (sheet_path : String) (tps : List String)
    (hnd : (pkg.map Prod.fst).Nodup)
    (hsp : _find_sheet_part_path pkg nm = Except.ok sheet_path)
    (htp : _get_table_paths_for_sheet pkg sheet_path = Except.ok tps)
    (hok : fast_patch_template pkg nm H S C B = Except.ok out) :
    out.filter (fun pr => untouchedName sheet_path tps pr.1)
      = pkg.filter (fun pr => untouchedName sheet_path tps pr.1) := by
  unfold fast_patch_template at hok
  rw [hsp] at hok
  simp only at hok
  rw [htp] at hok
  simp only at hok
  cases hws : zread pkg sheet_path with
  | none => rw [hws] at hok; exact Except.noConfusion hok
  | some p =>
    rw [hws] at hok
    cases p with
    | sheet w =>
      simp only at hok
      have hout : out = assembleOutput pkg sheet_path
          (_patch_sheet_xml w H S (effective_used_cols pkg tps C) B)
          (tps.filterMap (patchTableAt pkg H (max H (S + B.length - 1))
            (effective_used_cols pkg tps C))) := (Except.ok.inj hok).symm
      subst hout
      unfold assembleOutput
      have main : ∀ l : Package, (∀ pr ∈ l, pr ∈ pkg) →
          (l.filterMap (assembleEntry pkg sheet_path
              (_patch_sheet_xml w H S (effective_used_cols pkg tps C) B)
              (tps.filterMap (patchTableAt pkg H (max H (S + B.length - 1))
                (effective_used_cols pkg tps C))))).filter
            (fun pr => untouchedName sheet_path tps pr.1)
            = l.filter (fun pr => untouchedName sheet_path tps pr.1) := by
        have hfilpos : ∀ (x : String × PkgPart) (l : List (String × PkgPart)),
            untouchedName sheet_path tps x.1 = true →
            (x :: l).filter (fun pr => untouchedName sheet_path tps pr.1)
              = x :: l.filter (fun pr => untouchedName sheet_path tps pr.1) := by
          intro x l hx
          simp [List.filter_cons, hx]
        have hfilneg : ∀ (x : String × PkgPart) (l : List (String × PkgPart)),
            untouchedName sheet_path tps x.1 = false →
            (x :: l).filter (fun pr => untouchedName sheet_path tps pr.1)
              = l.filter (fun pr => untouchedName sheet_path tps pr.1) := by
          intro x l hx
          simp [List.filter_cons, hx]
        intro l hl
        induction l with
        | nil => rfl
        | cons pr t ih =>
          have hpr : pr ∈ pkg := hl pr (List.mem_cons_self _ _)
          have ht : ∀ x ∈ t, x ∈ pkg := fun x hx => hl x (List.mem_cons_of_mem _ hx)
          by_cases hq : untouchedName sheet_path tps pr.1 = true
          · have hparts := hq
            unfold untouchedName at hparts
            simp only [Bool.and_eq_true, Bool.not_eq_true', beq_eq_false_iff_ne,
              decide_eq_false_iff_not] at hparts
            obtain ⟨⟨⟨h1, h2⟩, h3⟩, h4⟩ := hparts
            have hf : assembleEntry pkg sheet_path
                (_patch_sheet_xml w H S (effective_used_cols pkg tps C) B)
                (tps.filterMap (patchTableAt pkg H (max H (S + B.length - 1))
                  (effective_used_cols pkg tps C))) pr = some pr := by
              unfold assembleEntry
              rw [if_neg h1, lookup_patched_none h2]
              simp only
              rw [if_neg h3, if_neg h4]
              have hz : zread pkg pr.1 = some pr.2 :=
                zread_eq_of_mem_nodup hnd (by rw [Prod.mk.eta]; exact hpr)
              rw [hz]
              simp
            simp only [List.filterMap_cons, hf]
            rw [hfilpos pr _ hq, hfilpos pr _ hq]
            rw [ih ht]
          · have hqf : untouchedName sheet_path tps pr.1 = false := by
              cases h : untouchedName sheet_path tps pr.1
              · rfl
              · exact absurd h hq
            cases hf : assembleEntry pkg sheet_path
                (_patch_sheet_xml w H S (effective_used_cols pkg tps C) B)
                (tps.filterMap (patchTableAt pkg H (max H (S + B.length - 1))
                  (effective_used_cols pkg tps C))) pr with
            | none =>
              simp only [List.filterMap_cons, hf]
              rw [hfilneg pr _ hqf]
              exact ih ht
            | some b =>
              have hb : b.1 = pr.1 := assembleEntry_name hf
              simp only [List.filterMap_cons, hf]
              rw [hfilneg pr _ hqf]
              rw [hfilneg b _ (by rw [hb]; exact hqf)]
              exact ih ht
      exact main pkg (fun pr hpr => hpr)
    | table t => exact Except.noConfusion hok
    | ctypes e => exact Except.noConfusion hok
    | workbook wb => exact Except.noConfusion hok
    | rels r => exact Except.noConfusion hok
    | raw b => exact Except.noConfusion hok

/-- A successful run, given the two resolution results, always read a
worksheet part at the resolved path and produced exactly the assembled
output. -/
theorem fast_patch_ok_shape {pkg : Package} {nm : String} {H S C : Nat}
    {B : List (List String)} {out : Package} {sheet_path : String} {tps : List String}
    (hsp : _find_sheet_part_path pkg nm = Except.ok sheet_path)
    (htp : _get_table_paths_for_sheet pkg sheet_path = Except.ok tps)
    (hok : fast_patch_template pkg nm H S C B = Except.ok out) :
    ∃ w, zread pkg sheet_path = some (PkgPart.sheet w)
      ∧ out = assembleOutput pkg sheet_path
          (_patch_sheet_xml w H S (effective_used_cols pkg tps C) B)
          (tps.filterMap (patchTableAt pkg H (max H (S + B.length - 1))
            (effective_used_cols pkg tps C))) := by
  unfold fast_patch_template at hok
  rw [hsp] at hok
  simp only at hok
  rw [htp] at hok
  simp only at hok
  cases hws : zread pkg sheet_path with
  | none => rw [hws] at hok; exact Except.noConfusion hok
  | some p =>
    rw [hws] at hok
    cases p with
    | sheet w =>
      simp only at hok
      exact ⟨w, rfl, (Except.ok.inj hok).symm⟩
    | table t => exact Except.noConfusion hok
    | ctypes e => exact Except.noConfusion hok
    | workbook wb => exact Except.noConfusion hok
    | rels r => exact Except.noConfusion hok
    | raw b => exact Except.noConfusion hok

/-- Exhaustive description of what one assembler step can emit. -/
theorem assembleEntry_cases {pkg : Package} {sheet_path : String} {new_sheet : Worksheet}
    {patched : List (String × TableXml)} {pr b : String × PkgPart}
    (h : assembleEntry pkg sheet_path new_sheet patched pr = some b) :
    (pr.1 = sheet_path ∧ b = (pr.1, PkgPart.sheet new_sheet))
    ∨ (∃ t, patched.lookup pr.1 = some t ∧ pr.1 ≠ sheet_path ∧ b = (pr.1, PkgPart.table t))
    ∨ (strToLower pr.1 = "[content_types].xml" ∧ pr.1 ≠ sheet_path
        ∧ patched.lookup pr.1 = none
        ∧ b = (pr.1, _strip_calcchain_override ((zread pkg pr.1).getD pr.2)))
    ∨ (strToLower pr.1 ≠ "[content_types].xml" ∧ strToLower pr.1 ≠ "xl/calcchain.xml"
        ∧ pr.1 ≠ sheet_path ∧ patched.lookup pr.1 = none
        ∧ b = (pr.1, (zread pkg pr.1).getD pr.2)) := by
  unfold assembleEntry at h
  by_cases h1 : pr.1 = sheet_path
  · rw [if_pos h1] at h
    exact Or.inl ⟨h1, (Option.some.inj h).symm⟩
  · rw [if_neg h1] at h
    cases hl : patched.lookup pr.1 with
    | some t =>
      rw [hl] at h
      exact Or.inr (Or.inl ⟨t, rfl, h1, (Option.some.inj h).symm⟩)
    | none =>
      rw [hl] at h
      by_cases h2 : strToLower pr.1 = "[content_types].xml"
      · rw [if_pos h2] at h
        exact Or.inr (Or.inr (Or.inl ⟨h2, h1, rfl, (Option.some.inj h).symm⟩))
      · rw [if_neg h2] at h
        by_cases h3 : strToLower pr.1 = "xl/calcchain.xml"
        · rw [if_pos h3] at h; cases h
        · rw [if_neg h3] at h
          exact Or.inr (Or.inr (Or.inr ⟨h2, h3, h1, rfl, (Option.some.inj h).symm⟩))

/-- Whatever `_strip_calcchain_override` leaves as a Content-Types
document carries no calcChain override. -/
theorem strip_calcchain_result {p : PkgPart} {ents : List CTEntry}
    (h : _strip_calcchain_override p = PkgPart.ctypes ents) :
    ∀ e ∈ ents, ¬(e.isOverride = true
      ∧ strToLower (e.partName.getD "") = "/xl/calcchain.xml") := by
  cases p with
  | ctypes e0 =>
    unfold _strip_calcchain_override at h
    have hf := PkgPart.ctypes.inj h
    intro e he hcond
    rw [← hf] at he
    rw [List.mem_filter] at he
    have hp := he.2
    rw [hcond.1, hcond.2] at hp
    simp at hp
  | sheet w => exact PkgPart.noConfusion h
  | table t => exact PkgPart.noConfusion h
  | workbook wb => exact PkgPart.noConfusion h
  | rels r => exact PkgPart.noConfusion h
  | raw bb => exact PkgPart.noConfusion h

/-- C6 (witness at a concrete package). -/
theorem C6_passthrough_witness :
    outW.filter (fun pr =>
        untouchedName "xl/worksheets/sheet1.xml" ["xl/tables/table1.xml"] pr.1)
      = pkgW.filter (fun pr =>
        untouchedName "xl/worksheets/sheet1.xml" ["xl/tables/table1.xml"] pr.1) :=
  C6_passthrough pkgW "S" 1 3 2 [["a", "b"], ["", "d"]] outW "xl/worksheets/sheet1.xml"
    ["xl/tables/table1.xml"] (by decide) (by decide) (by decide) rfl

/-- Adversarial package whose workbook binds the requested sheet to the
target `calcChain.xml`, so the resolved worksheet path *is*
`xl/calcChain.xml` (and that part holds worksheet content). -/
def pkgC7 : Package :=
  [("xl/workbook.xml", PkgPart.workbook (some [{ name := some "S", rid := some "rId1" }])),
   ("xl/_rels/workbook.xml.rels",
      PkgPart.rels [{ relId := some "rId1", relType := some "http://x/worksheet",
                      relTarget := some "calcChain.xml" }]),
   ("xl/calcChain.xml", PkgPart.sheet wsEmpty)]

def outC7 : Package := (fast_patch_template pkgC7 "S" 1 3 1 [["x"]]).toOption.getD []

/-- C7 (counterexample).  The assembler tests `fn == sheet_path` before
the calcChain drop, so when the sheet resolution lands on
`xl/calcChain.xml` the patch succeeds and the output still contains a
part with that name (it now holds the patched worksheet): the claim's
"the output package contains no part named xl/calcChain.xml" fails. -/
theorem C7_counterexample :
    fast_patch_template pkgC7 "S" 1 3 1 [["x"]] = Except.ok outC7
    ∧ outC7.any (fun pr => strToLower pr.1 == "xl/calcchain.xml") = true :=
  ⟨rfl, by decide⟩

/-- C7 (amended: provided neither the resolved sheet path nor any bound
table path is itself named `xl/calcchain.xml` case-insensitively).
Every successful patch yields a package with no part whose lowercased
name is `xl/calcchain.xml`, and any Content-Types document stored under
the manifest name carries no Override whose PartName lowercases to
`/xl/calcchain.xml`. -/
theorem C7_calcchain_absent (pkg : Package) (nm : String) (H S C : Nat)
    (B : List (List String)) (out : Package) (sheet_path : String) (tps : List String)
    (hsp : _find_sheet_part_path pkg nm = Except.ok sheet_path)
    (htp : _get_table_paths_for_sheet pkg sheet_path = Except.ok tps)
    (hspn : strToLower sheet_path ≠ "xl/calcchain.xml")
    (htpn : ∀ tp ∈ tps, strToLower tp ≠ "xl/calcchain.xml")
    (hok : fast_patch_template pkg nm H S C B = Except.ok out) :
    (∀ pr ∈ out, strToLower pr.1 ≠ "xl/calcchain.xml")
    ∧ (∀ pr ∈ out, strToLower pr.1 = "[content_types].xml" →
        ∀ ents, pr.2 = PkgPart.ctypes ents →
          ∀ e ∈ ents, ¬(e.isOverride = true
            ∧ strToLower (e.partName.getD "") = "/xl/calcchain.xml")) := by
  obtain ⟨w, hws, hout⟩ := fast_patch_ok_shape hsp htp hok
  subst hout
  constructor
  · intro pr hpr
    unfold assembleOutput at hpr
    rw [List.mem_filterMap] at hpr
    obtain ⟨src, _, hf⟩ := hpr
    rcases assembleEntry_cases hf with ⟨h1, rfl⟩ | ⟨t, hl, _, rfl⟩ | ⟨h2, _, _, rfl⟩
      | ⟨_, h3, _, _, rfl⟩
    · simpa [h1] using hspn
    · obtain ⟨htps, _, _⟩ := lookup_patched_mem hl
      exact htpn _ htps
    · show strToLower src.1 ≠ "xl/calcchain.xml"
      rw [h2]
      decide
    · exact h3
  · intro pr hpr hct ents hents
    unfold assembleOutput at hpr
    rw [List.mem_filterMap] at hpr
    obtain ⟨src, _, hf⟩ := hpr
    rcases assembleEntry_cases hf with ⟨h1, rfl⟩ | ⟨t, hl, _, rfl⟩ | ⟨h2, _, _, rfl⟩
      | ⟨h2, _, _, _, rfl⟩
    · exact PkgPart.noConfusion hents
    · exact PkgPart.noConfusion hents
    · exact strip_calcchain_result hents
    · exact absurd hct h2

/-- C7 (witness for the amended theorem at a concrete package). -/
theorem C7_calcchain_absent_witness :
    (∀ pr ∈ outW, strToLower pr.1 ≠ "xl/calcchain.xml")
    ∧ (∀ pr ∈ outW, strToLower pr.1 = "[content_types].xml" →
        ∀ ents, pr.2 = PkgPart.ctypes ents →
          ∀ e ∈ ents, ¬(e.isOverride = true
            ∧ strToLower (e.partName.getD "") = "/xl/calcchain.xml")) :=
  C7_calcchain_absent pkgW "S" 1 3 2 [["a", "b"], ["", "d"]] outW "xl/worksheets/sheet1.xml"
    ["xl/tables/table1.xml"] (by decide) (by decide) (by decide) (by decide) rfl

/-- C8 (amended: provided the failed table part is not itself the
resolved sheet path, the Content-Types manifest, or the calcChain part
name — in those cases it is substituted, sanitized or dropped instead).
Once the sheet resolves, the bound-table list resolves, and the sheet
part parses, the operation always produces a complete output package,
and every bound table part whose bytes fail to parse is carried into
the output untouched. -/
theorem C8_failed_table_untouched (pkg : Package) (nm : String) (H S C : Nat)
    (B : List (List String)) (sheet_path : String) (tps : List String) (w : Worksheet)
    (hsp : _find_sheet_part_path pkg nm = Except.ok sheet_path)
    (htp : _get_table_paths_for_sheet pkg sheet_path = Except.ok tps)
    (hws : zread pkg sheet_path = some (PkgPart.sheet w)) :
    ∃ out, fast_patch_template pkg nm H S C B = Except.ok out
      ∧ ∀ tp ∈ tps, ∀ b : String, zread pkg tp = some (PkgPart.raw b) →
          tp ≠ sheet_path → strToLower tp ≠ "[content_types].xml" →
          strToLower tp ≠ "xl/calcchain.xml" →
          (tp, PkgPart.raw b) ∈ out := by
  have hok : fast_patch_template pkg nm H S C B
      = Except.ok (assembleOutput pkg sheet_path
          (_patch_sheet_xml w H S (effective_used_cols pkg tps C) B)
          (tps.filterMap (patchTableAt pkg H (max H (S + B.length - 1))
            (effective_used_cols pkg tps C)))) := by
    unfold fast_patch_template
    rw [hsp]
    simp only
    rw [htp]
    simp only
    rw [hws]
  refine ⟨_, hok, ?_⟩
  intro tp htps b hzb hne1 hne2 hne3
  have hmem : (tp, PkgPart.raw b) ∈ pkg := zread_mem hzb
  have hlp : (tps.filterMap (patchTableAt pkg H (max H (S + B.length - 1))
      (effective_used_cols pkg tps C))).lookup tp = none := by
    cases hl : (tps.filterMap (patchTableAt pkg H (max H (S + B.length - 1))
        (effective_used_cols pkg tps C))).lookup tp with
    | none => rfl
    | some t =>
      obtain ⟨_, t0, hz0⟩ := lookup_patched_mem hl
      rw [hzb] at hz0
      exact PkgPart.noConfusion (Option.some.inj hz0)
  have hf : assembleEntry pkg sheet_path
      (_patch_sheet_xml w H S (effective_used_cols pkg tps C) B)
      (tps.filterMap (patchTableAt pkg H (max H (S + B.length - 1))
        (effective_used_cols pkg tps C))) (tp, PkgPart.raw b)
      = some (tp, PkgPart.raw b) := by
    unfold assembleEntry
    rw [if_neg hne1, hlp]
    simp only
    rw [if_neg hne2, if_neg hne3, hzb]
    rfl
  exact List.mem_filterMap.mpr ⟨(tp, PkgPart.raw b), hmem, hf⟩

/-- Adversarial package whose worksheet binds a table relationship to
`../calcChain.xml`, while the part at `xl/calcChain.xml` holds bytes
that are not XML (so the table patch fails on it). -/
def pkgC8 : Package :=
  [("xl/workbook.xml", PkgPart.workbook (some [{ name := some "S", rid := some "rId1" }])),
   ("xl/_rels/workbook.xml.rels",
      PkgPart.rels [{ relId := some "rId1", relType := some "http://x/worksheet",
                      relTarget := some "worksheets/sheet1.xml" }]),
   ("xl/worksheets/sheet1.xml", PkgPart.sheet wsEmpty),
   ("xl/worksheets/_rels/sheet1.xml.rels",
      PkgPart.rels [{ relId := some "rId2", relType := some "http://x/table",
                      relTarget := some "../calcChain.xml" }]),
   ("xl/calcChain.xml", PkgPart.raw "notxml")]

def outC8 : Package := (fast_patch_template pkgC8 "S" 1 3 2 [["x"]]).toOption.getD []

/-- C8 (counterexample).  `xl/calcChain.xml` is a bound table part of
`pkgC8` and its patch fails (the part is not XML), so the claim demands
that the output contain the original part bytes; the assembler's
calcChain-drop branch instead removes the part entirely — the output
has no part of that name at all. -/
theorem C8_counterexample :
    _get_table_paths_for_sheet pkgC8 "xl/worksheets/sheet1.xml"
        = Except.ok ["xl/calcChain.xml"]
    ∧ zread pkgC8 "xl/calcChain.xml" = some (PkgPart.raw "notxml")
    ∧ fast_patch_template pkgC8 "S" 1 3 2 [["x"]] = Except.ok outC8
    ∧ outC8.any (fun pr => pr.1 == "xl/calcChain.xml") = false :=
  ⟨by decide, by decide, rfl, by decide⟩

/-- Well-formed package with a bound table part holding unparseable
bytes at a benign name. -/
def pkgC8w : Package :=
  [("xl/workbook.xml", PkgPart.workbook (some [{ name := some "S", rid := some "rId1" }])),
   ("xl/_rels/workbook.xml.rels",
      PkgPart.rels [{ relId := some "rId1", relType := some "http://x/worksheet",
                      relTarget := some "worksheets/sheet1.xml" }]),
   ("xl/worksheets/sheet1.xml", PkgPart.sheet wsEmpty),
   ("xl/worksheets/_rels/sheet1.xml.rels",
      PkgPart.rels [{ relId := some "rId2", relType := some "http://x/table",
                      relTarget := some "../tables/table1.xml" }]),
   ("xl/tables/table1.xml", PkgPart.raw "broken-table")]

/-- C8 (witness for the amended theorem at a concrete package). -/
theorem C8_failed_table_untouched_witness :
    ∃ out, fast_patch_template pkgC8w "S" 1 3 2 [["x"]] = Except.ok out
      ∧ ∀ tp ∈ ["xl/tables/table1.xml"], ∀ b : String,
          zread pkgC8w tp = some (PkgPart.raw b) →
          tp ≠ "xl/worksheets/sheet1.xml" → strToLower tp ≠ "[content_types].xml" →
          strToLower tp ≠ "xl/calcchain.xml" →
          (tp, PkgPart.raw b) ∈ out :=
  C8_failed_table_untouched pkgC8w "S" 1 3 2 [["x"]] "xl/worksheets/sheet1.xml"
    ["xl/tables/table1.xml"] wsEmpty (by decide) (by decide) (by decide)

theorem nodup_filterMap_tail {α β : Type} {f : α → Option β} {a : α} {l : List α}
    (h : ((a :: l).filterMap f).Nodup) : (l.filterMap f).Nodup := by
  rw [List.filterMap_cons] at h
  cases hf : f a with
  | none => rw [hf] at h; exact h
  | some b => rw [hf] at h; exact (List.nodup_cons.mp h).2

/-- When the values an optional projection extracts are unique, the
first entry matching a value is the only one: `find?` returns any
member that projects to it. -/
theorem find_unique {α β : Type} [BEq β] [LawfulBEq β] {f : α → Option β} {l : List α}
    (hn : (l.filterMap f).Nodup) {a : α} {x : β} (hm : a ∈ l) (hx : f a = some x) :
    l.find? (fun y => f y == some x) = some a := by
  induction l with
  | nil => cases hm
  | cons a0 rest ih =>
    cases hbe : (f a0 == some x) with
    | true =>
      have ha0 : f a0 = some x := by simpa using hbe
      rcases List.mem_cons.mp hm with rfl | hm2
      · exact List.find?_cons_of_pos _ hbe
      · exfalso
        rw [List.filterMap_cons, ha0] at hn
        exact (List.nodup_cons.mp hn).1 (List.mem_filterMap.mpr ⟨a, hm2, hx⟩)
    | false =>
      rcases List.mem_cons.mp hm with rfl | hm2
      · rw [hx] at hbe
        simp at hbe
      · rw [List.find?_cons_of_neg _ (by rw [hbe]; exact Bool.false_ne_true)]
        exact ih (nodup_filterMap_tail hn) hm2

/-- The claim's resolvability condition, stated declaratively over the
workbook manifest and the workbook relationship table: some entry
carries the requested name, a truthy relationship id, and that id leads
to a relationship with a truthy target. -/
def resolvableSheet (entries : List SheetEntry) (rels : List RelEntry) (nm : String) : Prop :=
  ∃ e ∈ entries, e.name = some nm ∧ ∃ rid, e.rid = some rid ∧ rid ≠ ""
    ∧ ∃ r ∈ rels, r.relId = some rid ∧ ∃ t, r.relTarget = some t ∧ t ≠ ""

/-- C9.  Over a package whose workbook manifest and workbook
relationship table parse (with unique sheet names and relationship ids,
as the data model's name→id→target mappings require): sheet resolution
fails with a `NotFound` error exactly when the requested name leads to
no truthy relationship target — and any resolution error is returned as
the result of the whole patch, before any part is modified: no output
package is produced. -/
theorem C9_notfound_iff (pkg : Package) (nm : String) (H S C : Nat) (B : List (List String))
    (entries : List SheetEntry) (rels : List RelEntry)
    (hwb : zread pkg "xl/workbook.xml" = some (PkgPart.workbook (some entries)))
    (hrl : zread pkg "xl/_rels/workbook.xml.rels" = some (PkgPart.rels rels))
    (hn1 : (entries.filterMap (fun e => e.name)).Nodup)
    (hn2 : (rels.filterMap (fun r => r.relId)).Nodup) :
    ((∃ msg, _find_sheet_part_path pkg nm = Except.error (PatchError.notFound msg))
        ↔ ¬ resolvableSheet entries rels nm)
    ∧ (∀ err, _find_sheet_part_path pkg nm = Except.error err →
        fast_patch_template pkg nm H S C B = Except.error err) := by
  have hfind : _find_sheet_part_path pkg nm =
      (let rid :=
        match firstSheetMatch entries nm with
        | none => ""
        | some e => e.rid.getD ""
      if rid = "" then
        Except.error (PatchError.notFound ("Sheet '" ++ nm ++ "' not found in workbook."))
      else
        let target :=
          match firstRelMatch rels rid with
          | none => ""
          | some r => r.relTarget.getD ""
        if target = "" then
          Except.error (PatchError.notFound ("Relationship for sheet '" ++ nm ++ "' not found."))
        else Except.ok (_norm_target target)) := by
    unfold _find_sheet_part_path
    rw [hwb]
    simp only
    rw [hrl]
  constructor
  · cases hfs : firstSheetMatch entries nm with
    | none =>
      have hres : _find_sheet_part_path pkg nm
          = Except.error (PatchError.notFound
              ("Sheet '" ++ nm ++ "' not found in workbook.")) := by
        rw [hfind, hfs]
        simp
      refine ⟨fun _ => ?_, fun _ => ⟨_, hres⟩⟩
      rintro ⟨e, he, hname, -⟩
      have h2 : firstSheetMatch entries nm = some e := find_unique hn1 he hname
      rw [hfs] at h2
      exact Option.noConfusion h2
    | some e =>
      have hee : ∀ e2 ∈ entries, e2.name = some nm → e2 = e := by
        intro e2 he2 hname2
        have h2 : firstSheetMatch entries nm = some e2 := find_unique hn1 he2 hname2
        rw [hfs] at h2
        exact (Option.some.inj h2).symm
      cases hrid : e.rid with
      | none =>
        have hres : _find_sheet_part_path pkg nm
            = Except.error (PatchError.notFound
                ("Sheet '" ++ nm ++ "' not found in workbook.")) := by
          rw [hfind, hfs]
          simp [hrid]
        refine ⟨fun _ => ?_, fun _ => ⟨_, hres⟩⟩
        rintro ⟨e2, he2, hname2, rid2, hrid2, -⟩
        rw [hee e2 he2 hname2, hrid] at hrid2
        exact Option.noConfusion hrid2
      | some ridv =>
        by_cases hre : ridv = ""
        · have hres : _find_sheet_part_path pkg nm
              = Except.error (PatchError.notFound
                  ("Sheet '" ++ nm ++ "' not found in workbook.")) := by
            rw [hfind, hfs]
            simp [hrid, hre]
          refine ⟨fun _ => ?_, fun _ => ⟨_, hres⟩⟩
          rintro ⟨e2, he2, hname2, rid2, hrid2, hre2, -⟩
          rw [hee e2 he2 hname2, hrid] at hrid2
          exact hre2 ((Option.some.inj hrid2).symm.trans hre)
        · cases hfr : firstRelMatch rels ridv with
          | none =>
            have hres : _find_sheet_part_path pkg nm
                = Except.error (PatchError.notFound
                    ("Relationship for sheet '" ++ nm ++ "' not found.")) := by
              rw [hfind, hfs]
              simp [hrid, hre, hfr]
            refine ⟨fun _ => ?_, fun _ => ⟨_, hres⟩⟩
            rintro ⟨e2, he2, hname2, rid2, hrid2, -, r2, hr2, hid2, -⟩
            rw [hee e2 he2 hname2, hrid] at hrid2
            obtain rfl := Option.some.inj hrid2
            have h2 : firstRelMatch rels ridv = some r2 := find_unique hn2 hr2 hid2
            rw [hfr] at h2
            exact Option.noConfusion h2
          | some r =>
            have hrr : ∀ r2 ∈ rels, r2.relId = some ridv → r2 = r := by
              intro r2 hr2 hid2
              have h2 : firstRelMatch rels ridv = some r2 := find_unique hn2 hr2 hid2
              rw [hfr] at h2
              exact (Option.some.inj h2).symm
            cases hrt : r.relTarget with
            | none =>
              have hres : _find_sheet_part_path pkg nm
                  = Except.error (PatchError.notFound
                      ("Relationship for sheet '" ++ nm ++ "' not found.")) := by
                rw [hfind, hfs]
                simp [hrid, hre, hfr, hrt]
              refine ⟨fun _ => ?_, fun _ => ⟨_, hres⟩⟩
              rintro ⟨e2, he2, hname2, rid2, hrid2, -, r2, hr2, hid2, t2, hrt2, -⟩
              rw [hee e2 he2 hname2, hrid] at hrid2
              obtain rfl := Option.some.inj hrid2
              rw [hrr r2 hr2 hid2, hrt] at hrt2
              exact Option.noConfusion hrt2
            | some tv =>
              by_cases hte : tv = ""
              · have hres : _find_sheet_part_path pkg nm
                    = Except.error (PatchError.notFound
                        ("Relationship for sheet '" ++ nm ++ "' not found.")) := by
                  rw [hfind, hfs]
                  simp [hrid, hre, hfr, hrt, hte]
                refine ⟨fun _ => ?_, fun _ => ⟨_, hres⟩⟩
                rintro ⟨e2, he2, hname2, rid2, hrid2, -, r2, hr2, hid2, t2, hrt2, hte2⟩
                rw [hee e2 he2 hname2, hrid] at hrid2
                obtain rfl := Option.some.inj hrid2
                rw [hrr r2 hr2 hid2, hrt] at hrt2
                exact hte2 ((Option.some.inj hrt2).symm.trans hte)
              · have hres : _find_sheet_part_path pkg nm
                    = Except.ok (_norm_target tv) := by
                  rw [hfind, hfs]
                  simp [hrid, hre, hfr, hrt, hte]
                constructor
                · rintro ⟨msg, hmsg⟩
                  rw [hres] at hmsg
                  exact Except.noConfusion hmsg
                · intro hnr
                  exfalso
                  apply hnr
                  have hename : e.name = some nm := by
                    have hp := List.find?_some hfs
                    simpa using hp
                  have hrname : r.relId = some ridv := by
                    have hp := List.find?_some hfr
                    simpa using hp
                  exact ⟨e, List.mem_of_find?_eq_some hfs, hename, ridv, hrid, hre,
                    r, List.mem_of_find?_eq_some hfr, hrname, tv, hrt, hte⟩
  · intro err herr
    unfold fast_patch_template
    rw [herr]

/-- C9 (witness at a concrete package: the iff and the
error-propagation conclusion instantiated at `pkgW`). -/
theorem C9_notfound_iff_witness :
    ((∃ msg, _find_sheet_part_path pkgW "S" = Except.error (PatchError.notFound msg))
        ↔ ¬ resolvableSheet [{ name := some "S", rid := some "rId1" }]
            [{ relId := some "rId1", relType := some "http://x/worksheet",
               relTarget := some "worksheets/sheet1.xml" }] "S")
    ∧ (∀ err, _find_sheet_part_path pkgW "S" = Except.error err →
        fast_patch_template pkgW "S" 1 3 2 [["a", "b"]] = Except.error err) :=
  C9_notfound_iff pkgW "S" 1 3 2 [["a", "b"]]
    [{ name := some "S", rid := some "rId1" }]
    [{ relId := some "rId1", relType := some "http://x/worksheet",
       relTarget := some "worksheets/sheet1.xml" }]
    (by decide) (by decide) (by decide) (by decide)

theorem le_effective_used_cols (pkg : Package) :
    ∀ (tps : List String) (u : Nat), u ≤ effective_used_cols pkg tps u := by
  intro tps
  induction tps with
  | nil => intro u; exact Nat.le_refl u
  | cons tp rest ih =>
    intro u
    show u ≤ effective_used_cols pkg rest (max u (tableColsOf pkg tp))
    exact Nat.le_trans (Nat.le_max_left _ _) (ih _)

/-- C10.  The column count the engine actually patches with is not the
caller's `used_cols` but `effective_used_cols`: `used_cols` raised by
every bound table's `_read_table_cols_count` (the max of its declared
`count` attribute and its actual column children, a table that fails to
read contributing nothing).  The output's sheet part is patched with
that raised count — hence so are its dimension and autoFilter — and so
is every bound table that parses; the raised count is at least
`used_cols`, so the written ranges can exceed the Data Block's own
width. -/
theorem C10_effective_cols (pkg : Package) (nm : String) (H S used_cols : Nat)
    (B : List (List String)) (out : Package) (sheet_path : String) (tps : List String)
    (w : Worksheet)
    (hsp : _find_sheet_part_path pkg nm = Except.ok sheet_path)
    (htp : _get_table_paths_for_sheet pkg sheet_path = Except.ok tps)
    (hws : zread pkg sheet_path = some (PkgPart.sheet w))
    (hok : fast_patch_template pkg nm H S used_cols B = Except.ok out) :
    used_cols ≤ effective_used_cols pkg tps used_cols
    ∧ (sheet_path,
        PkgPart.sheet (_patch_sheet_xml w H S (effective_used_cols pkg tps used_cols) B)) ∈ out
    ∧ ∀ tp ∈ tps, ∀ t, zread pkg tp = some (PkgPart.table t) →
        (tp, PkgPart.table (_patch_table_xml t H (max H (S + B.length - 1))
          (effective_used_cols pkg tps used_cols))) ∈ out := by
  obtain ⟨w2, hws2, hout⟩ := fast_patch_ok_shape hsp htp hok
  rw [hws] at hws2
  obtain rfl := PkgPart.sheet.inj (Option.some.inj hws2)
  subst hout
  refine ⟨le_effective_used_cols pkg tps used_cols, ?_, ?_⟩
  · have hmem : (sheet_path, PkgPart.sheet w) ∈ pkg := zread_mem hws
    refine List.mem_filterMap.mpr ⟨(sheet_path, PkgPart.sheet w), hmem, ?_⟩
    unfold assembleEntry
    rw [if_pos rfl]
  · intro tp htps t hz
    have hne : tp ≠ sheet_path := by
      intro he
      rw [he, hws] at hz
      exact PkgPart.noConfusion (Option.some.inj hz)
    have hmem : (tp, PkgPart.table t) ∈ pkg := zread_mem hz
    refine List.mem_filterMap.mpr ⟨(tp, PkgPart.table t), hmem, ?_⟩
    unfold assembleEntry
    rw [if_neg hne, lookup_patched_some htps hz]

/-- C10 (witness at a concrete package: the caller passes 2 columns but
the bound table declares 6, so everything is patched with 6). -/
theorem C10_effective_cols_witness :
    2 ≤ effective_used_cols pkgW ["xl/tables/table1.xml"] 2
    ∧ ("xl/worksheets/sheet1.xml",
        PkgPart.sheet (_patch_sheet_xml wsW 1 3
          (effective_used_cols pkgW ["xl/tables/table1.xml"] 2)
          [["a", "b"], ["", "d"]])) ∈ outW
    ∧ ∀ tp ∈ ["xl/tables/table1.xml"], ∀ t, zread pkgW tp = some (PkgPart.table t) →
        (tp, PkgPart.table (_patch_table_xml t 1 (max 1 (3 + [["a", "b"], ["", "d"]].length - 1))
          (effective_used_cols pkgW ["xl/tables/table1.xml"] 2))) ∈ outW :=
  C10_effective_cols pkgW "S" 1 3 2 [["a", "b"], ["", "d"]] outW "xl/worksheets/sheet1.xml"
    ["xl/tables/table1.xml"] wsW (by decide) (by decide) (by decide) rfl

/-- C4 (witness for the amended theorem at a concrete input). -/
theorem C4_merges_safe_witness :
    ["A1:B2"] ≠ []
    ∧ ∀ m ∈ ["A1:B2"], ∀ lo hi, mergeRefRows m = some (lo, hi) →
        (max lo hi < 3 ∨ 1048576 < min lo hi) :=
  C4_merges_safe
    { rows := [], merges := some ["A1:B2", "A4:B5"], dimension := none,
      autoFilter := none, sheetPr := none, extraBlob := "" } 1 3 2 [["x"]] ["A1:B2"] (by decide)
